import Mathlib

/-!
Verification of the MaxDefense simulation core (src/src/App.tsx).

The source is a TypeScript/React missile-defense game.  This file gives a
shallow embedding of its simulation logic and proves/refutes the frozen
claims about it.

Modelling conventions:
* JavaScript `number` arithmetic is idealised as exact real arithmetic (ℝ);
  `Math.sqrt` is `Real.sqrt`, `Math.abs` is `|·|`.  This matches the spec,
  which describes the geometry in exact terms.
* React `useRef` stores are `List`s threaded through the tick function.
  `setScore(prev => prev + k)` functional updates are committed at the end
  of a tick, while a plain read of the captured `score` variable inside the
  tick sees the value from the start of the tick (React closure semantics);
  the embedding reproduces this by keeping `s.score` for reads and adding
  the accumulated kill bonus only to the committed result.
* `Array.prototype.forEach` combined with `splice(index, 1)` of the current
  element skips the element that slides into the freed slot; the pass
  functions below model this with an explicit "skip the next element after
  a removal" recursion.
* Entity `id` strings and rocket `color` are behaviourally irrelevant
  (random identifiers / presentation only) and are omitted.
* `Math.random()` draws are supplied by a `SpawnInput` oracle argument.
-/

namespace MaxDefense

/-- Constants from App.tsx lines 12–20. -/
def CANVAS_WIDTH : ℝ := 800

def CANVAS_HEIGHT : ℝ := 600

def ROCKET_SPEED_MIN : ℝ := 0.25

def ROCKET_SPEED_MAX : ℝ := 0.75

def MISSILE_SPEED : ℝ := 7

def EXPLOSION_RADIUS_MAX : ℝ := 40

def EXPLOSION_GROWTH_RATE : ℝ := 1.5

def SCORE_PER_ROCKET : ℕ := 20

def WIN_SCORE : ℕ := 1000

/-- A rocket (App.tsx lines 34–39); `id` and `color` omitted. -/
structure Rocket where
  x : ℝ
  y : ℝ
  targetX : ℝ
  targetY : ℝ
  speed : ℝ

/-- A missile (App.tsx lines 41–46); `id` omitted. -/
structure Missile where
  x : ℝ
  y : ℝ
  destX : ℝ
  destY : ℝ
  startX : ℝ
  startY : ℝ

/-- An explosion (App.tsx lines 48–51); `id` omitted. -/
structure Explosion where
  x : ℝ
  y : ℝ
  radius : ℝ
  growing : Bool

/-- A battery (App.tsx lines 53–59). -/
structure Battery where
  x : ℝ
  y : ℝ
  ammo : ℤ
  maxAmmo : ℤ
  destroyed : Bool

/-- A city (App.tsx lines 61–65). -/
structure City where
  x : ℝ
  y : ℝ
  destroyed : Bool

/-- The `gameState` React state (App.tsx line 102). -/
inductive Phase where
  | menu
  | playing
  | won
  | lost
deriving DecidableEq

/-- The `ammo` UI snapshot `{left, center, right}` (App.tsx line 104). -/
structure AmmoSnap where
  left : ℤ
  center : ℤ
  right : ℤ

/-- The whole observable simulation state: React state plus entity refs. -/
structure GameState where
  phase : Phase
  score : ℕ
  rockets : List Rocket
  missiles : List Missile
  explosions : List Explosion
  batteries : List Battery
  cities : List City
  ammo : AmmoSnap

/--
Radius/growing update of one explosion, App.tsx lines 232–242: if growing,
`radius += 1.5`, and once `radius >= 40` the `growing` flag turns false;
otherwise `radius -= 1.5`, and the explosion is spliced out once
`radius <= 0`.  The second component is the removal flag; the returned
explosion is the post-update object (used by the rocket-collision check even
on the removal tick, since the splice happens before that check).
-/
noncomputable def expPhaseStep (e : Explosion) : Explosion × Bool :=
  if e.growing then
    let e1 : Explosion := { e with radius := e.radius + EXPLOSION_GROWTH_RATE }
    (if e1.radius ≥ EXPLOSION_RADIUS_MAX then { e1 with growing := false } else e1, false)
  else
    let e1 : Explosion := { e with radius := e.radius - EXPLOSION_GROWTH_RATE }
    (e1, if e1.radius ≤ 0 then true else false)

lemma expPhaseStep_grow_lt (e : Explosion) (hg : e.growing = true)
    (h : e.radius + EXPLOSION_GROWTH_RATE < EXPLOSION_RADIUS_MAX) :
    expPhaseStep e = ({ e with radius := e.radius + EXPLOSION_GROWTH_RATE }, false) := by
  simp [expPhaseStep, hg, ge_iff_le, not_le.mpr h]

lemma expPhaseStep_grow_ge (e : Explosion) (hg : e.growing = true)
    (h : EXPLOSION_RADIUS_MAX ≤ e.radius + EXPLOSION_GROWTH_RATE) :
    expPhaseStep e =
      ({ e with radius := e.radius + EXPLOSION_GROWTH_RATE, growing := false }, false) := by
  simp [expPhaseStep, hg, ge_iff_le, h]

lemma expPhaseStep_shrink (e : Explosion) (hg : e.growing = false) :
    expPhaseStep e = ({ e with radius := e.radius - EXPLOSION_GROWTH_RATE },
      if e.radius - EXPLOSION_GROWTH_RATE ≤ 0 then true else false) := by
  rw [expPhaseStep, if_neg (by simp [hg])]

/--
The life of one undisturbed explosion across ticks: each playing-phase tick
applies `expPhaseStep` once to every live explosion, and a raised removal
flag deletes it from the store.  `none` means the explosion has been removed.
-/
noncomputable def expIter (e : Explosion) : ℕ → Option Explosion
  | 0 => some e
  | n + 1 =>
    (expIter e n).bind fun e1 =>
      if (expPhaseStep e1).2 then none else some (expPhaseStep e1).1

lemma expIter_succ_some (e e1 : Explosion) (n : ℕ) (h : expIter e n = some e1) :
    expIter e (n + 1) =
      if (expPhaseStep e1).2 then none else some (expPhaseStep e1).1 := by
  rw [expIter, h, Option.some_bind]

/-- While `2 + 1.5·k < 40` the radius sequence from a fresh explosion just
climbs the 1.5-grid: after `k ≤ 25` ticks the radius is `2 + 1.5·k` and the
explosion is still growing. -/
lemma expIter_grow (x y : ℝ) :
    ∀ k : ℕ, k ≤ 25 →
      expIter ⟨x, y, 2, true⟩ k = some ⟨x, y, 2 + 1.5 * k, true⟩ := by
  intro k
  induction k with
  | zero => intro _; norm_num [expIter]
  | succ n ih =>
    intro hn
    have hn' : n ≤ 25 := Nat.le_of_succ_le hn
    have hlt : (n : ℝ) ≤ 24 := by
      have : n ≤ 24 := Nat.lt_succ_iff.mp hn
      exact_mod_cast this
    have hstep := expPhaseStep_grow_lt ⟨x, y, 2 + 1.5 * n, true⟩ rfl
      (by rw [EXPLOSION_GROWTH_RATE, EXPLOSION_RADIUS_MAX]; simp only []; nlinarith)
    rw [expIter_succ_some _ _ n (ih hn'), hstep]
    simp only [if_neg Bool.false_ne_true, Option.some.injEq, Explosion.mk.injEq]
    refine ⟨trivial, trivial, ?_, trivial⟩
    push_cast
    rw [EXPLOSION_GROWTH_RATE]
    ring

/-- After 26 ticks the radius of a fresh explosion is 41 and it has flipped
to shrinking. -/
lemma expIter_twentysix (x y : ℝ) :
    expIter ⟨x, y, 2, true⟩ 26 = some ⟨x, y, 41, false⟩ := by
  have hstep := expPhaseStep_grow_ge ⟨x, y, 2 + 1.5 * (25 : ℕ), true⟩ rfl
    (by rw [EXPLOSION_GROWTH_RATE, EXPLOSION_RADIUS_MAX]; push_cast; norm_num)
  rw [show (26 : ℕ) = 25 + 1 from rfl, expIter_succ_some _ _ 25 (expIter_grow x y 25 le_rfl),
    hstep]
  simp only [if_neg Bool.false_ne_true, Option.some.injEq, Explosion.mk.injEq]
  refine ⟨trivial, trivial, ?_, trivial⟩
  push_cast
  rw [EXPLOSION_GROWTH_RATE]
  norm_num

/-- Claim C2 fails on the code: starting from radius 2 the growth branch
adds 1.5 per tick and only checks `radius >= 40` after the addition, and
since 1.5 does not evenly divide 40 − 2 = 38 the radius overshoots to 41
(> 40) on tick 26 before the flag flips.  The explosion's radius therefore
does exceed the stated maximum of 40. -/
theorem explosion_radius_overshoots_forty :
    expIter ⟨0, 0, 2, true⟩ 26 = some ⟨0, 0, 41, false⟩ ∧
      ¬ ((Explosion.mk 0 0 41 false).radius ≤ 40) := by
  refine ⟨expIter_twentysix 0 0, ?_⟩
  norm_num

/-- Invariant carried along an explosion's life: while growing the radius
sits on the grid `2 + 1.5·k` with `k ≤ 25`; once shrinking it is at most 41. -/
def ExpInv (e : Explosion) : Prop :=
  (e.growing = true → ∃ k : ℕ, k ≤ 25 ∧ e.radius = 2 + 1.5 * k) ∧
    (e.growing = false → e.radius ≤ 41)

lemma expInv_radius_le (e : Explosion) (h : ExpInv e) : e.radius ≤ 41 := by
  rcases h with ⟨hg, hs⟩
  cases hgrow : e.growing with
  | true =>
    obtain ⟨k, hk, hrad⟩ := hg hgrow
    have : (k : ℝ) ≤ 25 := by exact_mod_cast hk
    rw [hrad]
    nlinarith
  | false => exact hs hgrow

lemma expInv_step (e : Explosion) (h : ExpInv e) :
    ExpInv (expPhaseStep e).1 := by
  rcases h with ⟨hg, hs⟩
  cases hgrow : e.growing with
  | true =>
    obtain ⟨k, hk, hrad⟩ := hg hgrow
    have hkr : (k : ℝ) ≤ 25 := by exact_mod_cast hk
    by_cases hcap : EXPLOSION_RADIUS_MAX ≤ e.radius + EXPLOSION_GROWTH_RATE
    · rw [expPhaseStep_grow_ge e hgrow hcap]
      refine ⟨fun hfalse => by simp at hfalse, fun _ => ?_⟩
      simp only []
      rw [hrad, EXPLOSION_GROWTH_RATE]
      nlinarith
    · rw [expPhaseStep_grow_lt e hgrow (not_le.mp hcap)]
      refine ⟨fun _ => ⟨k + 1, ?_, ?_⟩, fun hfalse => by simp [hgrow] at hfalse⟩
      · by_contra hk26
        have hk25 : k = 25 := by omega
        rw [EXPLOSION_GROWTH_RATE, EXPLOSION_RADIUS_MAX, hrad, hk25] at hcap
        push_cast at hcap
        norm_num at hcap
      · simp only []
        rw [hrad, EXPLOSION_GROWTH_RATE]
        push_cast
        ring
  | false =>
    have hle : e.radius ≤ 41 := hs hgrow
    rw [expPhaseStep_shrink e hgrow]
    refine ⟨fun hfalse => by simp [hgrow] at hfalse, fun _ => ?_⟩
    simp only []
    rw [EXPLOSION_GROWTH_RATE]
    nlinarith

lemma expIter_inv (x y : ℝ) :
    ∀ (n : ℕ) (e1 : Explosion), expIter ⟨x, y, 2, true⟩ n = some e1 → ExpInv e1 := by
  intro n
  induction n with
  | zero =>
    intro e1 h
    simp only [expIter, Option.some.injEq] at h
    subst h
    exact ⟨fun _ => ⟨0, by omega, by norm_num⟩, fun hfalse => by simp at hfalse⟩
  | succ m ih =>
    intro e1 h
    cases hm : expIter ⟨x, y, 2, true⟩ m with
    | none => rw [expIter, hm] at h; exact absurd h (by simp)
    | some e0 =>
      rw [expIter_succ_some _ _ m hm] at h
      by_cases hrem : (expPhaseStep e0).2
      · rw [if_pos hrem] at h
        exact absurd h (by simp)
      · rw [if_neg hrem] at h
        simp only [Option.some.injEq] at h
        subst h
        exact expInv_step e0 (ih e0 hm)

/-- Claim C2 (amended): a fresh explosion starts at radius 2, grows by 1.5
per tick, flips to shrinking on the first tick its radius is ≥ 40 — which,
because 1.5 does not divide 38, is the overshoot value 41 rather than a
clamped 40 — then shrinks by 1.5 per tick until removed at ≤ 0.  Its radius
never exceeds 41. -/
theorem explosion_radius_le_fortyone (x y : ℝ) (n : ℕ) (e1 : Explosion)
    (h : expIter ⟨x, y, 2, true⟩ n = some e1) : e1.radius ≤ 41 :=
  expInv_radius_le e1 (expIter_inv x y n e1 h)

/-- Witness for `explosion_radius_le_fortyone` at the peak tick 26. -/
theorem explosion_radius_le_fortyone_witness :
    expIter ⟨0, 0, 2, true⟩ 26 = some ⟨0, 0, 41, false⟩ ∧
      (Explosion.mk 0 0 41 false).radius ≤ 41 :=
  ⟨expIter_twentysix 0 0,
    explosion_radius_le_fortyone 0 0 26 ⟨0, 0, 41, false⟩ (expIter_twentysix 0 0)⟩

/-! ## Motion and collision: the rocket pass (App.tsx lines 156–190) -/

/-- `Math.sqrt(dx*dx + dy*dy)` for a rocket's displacement to its fixed
target (App.tsx lines 158–160). -/
noncomputable def rocketDistance (r : Rocket) : ℝ :=
  Real.sqrt ((r.targetX - r.x) * (r.targetX - r.x) + (r.targetY - r.y) * (r.targetY - r.y))

/-- The movement branch (App.tsx lines 187–188): advance by the unit
direction vector scaled by the rocket's speed. -/
noncomputable def moveRocket (r : Rocket) : Rocket :=
  { r with
    x := r.x + (r.targetX - r.x) / rocketDistance r * r.speed,
    y := r.y + (r.targetY - r.y) / rocketDistance r * r.speed }

/-- The battery scan condition on impact (App.tsx line 174). -/
def batteryHit (r : Rocket) (b : Battery) : Prop :=
  |b.x - r.targetX| < 5 ∧ |b.y - r.targetY| < 5

/-- The city scan condition on impact (App.tsx line 180). -/
def cityHit (r : Rocket) (c : City) : Prop :=
  |c.x - r.targetX| < 5 ∧ |c.y - r.targetY| < 5

noncomputable instance (r : Rocket) (b : Battery) : Decidable (batteryHit r b) :=
  inferInstanceAs (Decidable (|b.x - r.targetX| < 5 ∧ |b.y - r.targetY| < 5))

noncomputable instance (r : Rocket) (c : City) : Decidable (cityHit r c) :=
  inferInstanceAs (Decidable (|c.x - r.targetX| < 5 ∧ |c.y - r.targetY| < 5))

/-- App.tsx lines 173–178: every battery matching the rocket's target within
the 5-unit box is destroyed and its ammo forced to 0. -/
noncomputable def destroyHitBatteries (r : Rocket) (bs : List Battery) : List Battery :=
  bs.map fun b => if batteryHit r b then { b with destroyed := true, ammo := 0 } else b

/-- App.tsx lines 179–183: every city matching the rocket's target within
the 5-unit box is destroyed. -/
noncomputable def destroyHitCities (r : Rocket) (cs : List City) : List City :=
  cs.map fun c => if cityHit r c then { c with destroyed := true } else c

/-- Rocket impact resolution (App.tsx lines 162–184): push an explosion of
radius 2, growing, at the rocket's current position, then run the
battery/city hit scans.  (The rocket itself is spliced out by the caller.) -/
noncomputable def resolveImpact (r : Rocket) (ex : List Explosion) (bs : List Battery)
    (cs : List City) : List Explosion × List Battery × List City :=
  (ex ++ [⟨r.x, r.y, 2, true⟩], destroyHitBatteries r bs, destroyHitCities r cs)

/-- One rocket's body in the forEach of App.tsx lines 157–190: impact when
`distance < 2` (the rocket is removed — `none`), otherwise move. -/
noncomputable def rocketStep (r : Rocket) (ex : List Explosion) (bs : List Battery)
    (cs : List City) : Option Rocket × List Explosion × List Battery × List City :=
  if rocketDistance r < 2 then (none, resolveImpact r ex bs cs)
  else (some (moveRocket r), ex, bs, cs)

/-- The rocket forEach with in-place `splice` of the current element: after a
removal the element that slides into the freed slot is skipped (it stays in
the store unprocessed this tick). -/
noncomputable def rocketsPass : List Rocket → List Explosion → List Battery → List City →
    List Rocket × List Explosion × List Battery × List City
  | [], ex, bs, cs => ([], ex, bs, cs)
  | r :: rest, ex, bs, cs =>
    match rocketStep r ex bs cs with
    | (some r1, ex1, bs1, cs1) =>
      let t := rocketsPass rest ex1 bs1 cs1
      (r1 :: t.1, t.2)
    | (none, ex1, bs1, cs1) =>
      match rest with
      | [] => ([], ex1, bs1, cs1)
      | r2 :: rest2 =>
        let t := rocketsPass rest2 ex1 bs1 cs1
        (r2 :: t.1, t.2)

/-! ## Motion and targeting: the missile pass (App.tsx lines 193–228) -/

/-- Distance from a missile to a rocket in the heat-seeking scan
(App.tsx line 199, written there with `Math.pow(·, 2)`). -/
noncomputable def mdistance (m : Missile) (r : Rocket) : ℝ :=
  Real.sqrt ((r.x - m.x) ^ 2 + (r.y - m.y) ^ 2)

/-- The heat-seeking scan (App.tsx lines 195–204): fold over the live
rockets keeping the strictly nearest one, starting from the detection range
`minDist = 300`; `none` plays the role of the initial `null`. -/
noncomputable def aimScan (m : Missile) : List Rocket → ℝ → Option Rocket → ℝ × Option Rocket
  | [], minDist, best => (minDist, best)
  | r :: rest, minDist, best =>
    if mdistance m r < minDist then aimScan m rest (mdistance m r) (some r)
    else aimScan m rest minDist best

/-- Re-aim of one missile (App.tsx lines 206–209): when the scan found a
rocket, overwrite the destination with that rocket's current position. -/
noncomputable def missileAim (rockets : List Rocket) (m : Missile) : Missile :=
  match (aimScan m rockets 300 none).2 with
  | some r => { m with destX := r.x, destY := r.y }
  | none => m

/-- `Math.sqrt(dx*dx + dy*dy)` for a missile's displacement to its
destination (App.tsx lines 211–213). -/
noncomputable def missileDistance (m : Missile) : ℝ :=
  Real.sqrt ((m.destX - m.x) * (m.destX - m.x) + (m.destY - m.y) * (m.destY - m.y))

/-- One missile's body in the forEach of App.tsx lines 193–228: re-aim, then
detonate (spawning a growing explosion of radius 2 at the destination and
being removed) when `distance < MISSILE_SPEED`, otherwise move. -/
noncomputable def missileStep (rockets : List Rocket) (m : Missile) (ex : List Explosion) :
    Option Missile × List Explosion :=
  let m1 := missileAim rockets m
  if missileDistance m1 < MISSILE_SPEED then
    (none, ex ++ [⟨m1.destX, m1.destY, 2, true⟩])
  else
    (some { m1 with
      x := m1.x + (m1.destX - m1.x) / missileDistance m1 * MISSILE_SPEED,
      y := m1.y + (m1.destY - m1.y) / missileDistance m1 * MISSILE_SPEED }, ex)

/-- The missile forEach with in-place `splice`, skipping the element after a
removal, as for rockets. -/
noncomputable def missilesPass (rockets : List Rocket) :
    List Missile → List Explosion → List Missile × List Explosion
  | [], ex => ([], ex)
  | m :: rest, ex =>
    match missileStep rockets m ex with
    | (some m1, ex1) =>
      let t := missilesPass rockets rest ex1
      (m1 :: t.1, t.2)
    | (none, ex1) =>
      match rest with
      | [] => ([], ex1)
      | m2 :: rest2 =>
        let t := missilesPass rockets rest2 ex1
        (m2 :: t.1, t.2)

/-! ## Explosion pass (App.tsx lines 231–254) -/

/-- The explosion-vs-rocket scan of one explosion (App.tsx lines 245–253):
a rocket strictly inside the current radius is spliced out and awards one
kill; the splice skips the next rocket exactly as in the other passes.
Returns the surviving rockets and the number of kills. -/
noncomputable def killScan (e : Explosion) : List Rocket → List Rocket × ℕ
  | [] => ([], 0)
  | r :: rest =>
    if Real.sqrt ((r.x - e.x) * (r.x - e.x) + (r.y - e.y) * (r.y - e.y)) < e.radius then
      match rest with
      | [] => ([], 1)
      | r2 :: rest2 =>
        let t := killScan e rest2
        (r2 :: t.1, t.2 + 1)
    else
      let t := killScan e rest
      (r :: t.1, t.2)

/-- The explosion forEach (App.tsx lines 231–254): radius update and
possible splice first, then the rocket-collision scan with the updated
explosion (the scan also runs, harmlessly, on the removal tick).  Returns
the surviving explosions, surviving rockets, and total kills. -/
noncomputable def explosionsPass : List Explosion → List Rocket →
    List Explosion × List Rocket × ℕ
  | [], rs => ([], rs, 0)
  | e :: rest, rs =>
    let s := expPhaseStep e
    let k := killScan s.1 rs
    if s.2 then
      match rest with
      | [] => ([], k.1, k.2)
      | e2 :: rest2 =>
        let t := explosionsPass rest2 k.1
        (e2 :: t.1, t.2.1, k.2 + t.2.2)
    else
      let t := explosionsPass rest k.1
      (s.1 :: t.1, t.2.1, k.2 + t.2.2)

/-! ## Spawner (App.tsx lines 131–151 and 256–259) -/

/-- Oracle for the `Math.random()` draws of one tick: `roll` decides the
spawn (line 257), `pick` selects the target (line 139, modelled modulo the
pool size), `startX` is the horizontal origin, `speedFrac ∈ [0,1)` scales
the speed range (line 148). -/
structure SpawnInput where
  roll : ℝ
  pick : ℕ
  startX : ℝ
  speedFrac : ℝ

/-- `spawnRocket` (App.tsx lines 131–151): build the pool of non-destroyed
batteries and cities; if empty do nothing, else append one rocket at the top
edge aimed at the chosen target's exact position. -/
noncomputable def spawnRocket (inp : SpawnInput) (bs : List Battery) (cs : List City)
    (rs : List Rocket) : List Rocket :=
  let targets : List (ℝ × ℝ) :=
    (bs.filter fun b => !b.destroyed).map (fun b => (b.x, b.y)) ++
      (cs.filter fun c => !c.destroyed).map (fun c => (c.x, c.y))
  if targets.length = 0 then rs
  else
    let t := targets.getD (inp.pick % targets.length) (0, 0)
    rs ++ [{ x := inp.startX, y := 0, targetX := t.1, targetY := t.2,
             speed := ROCKET_SPEED_MIN + inp.speedFrac * (ROCKET_SPEED_MAX - ROCKET_SPEED_MIN) }]

/-! ## The tick (App.tsx lines 153–283, `update`) -/

/-- Placeholder used with `getD` for the ammo snapshot reads
`batteriesRef.current[0..2]` (the store always holds exactly 3 batteries;
the source would throw otherwise). -/
def dummyBattery : Battery := ⟨0, 0, 0, 0, true⟩

/-- One simulation tick (`update`, App.tsx lines 153–283).

Order as in the source: early return unless `playing`; rocket pass; missile
pass; explosion pass; spawn; win check; loss check; ammo snapshot.  The two
win/loss checks read the `score` captured at the start of the tick (React
closure), while the kill bonuses are committed to the returned state; the
loss check runs unconditionally after the win check, so when both fire the
resulting phase is `lost`. -/
noncomputable def update (inp : SpawnInput) (s : GameState) : GameState :=
  if s.phase = Phase.playing then
    let p1 := rocketsPass s.rockets s.explosions s.batteries s.cities
    let rockets1 := p1.1
    let explosions1 := p1.2.1
    let batteries1 := p1.2.2.1
    let cities1 := p1.2.2.2
    let p2 := missilesPass rockets1 s.missiles explosions1
    let missiles1 := p2.1
    let explosions2 := p2.2
    let p3 := explosionsPass explosions2 rockets1
    let explosions3 := p3.1
    let rockets2 := p3.2.1
    let kills := p3.2.2
    let rockets3 :=
      if inp.roll < 0.015 + (s.score : ℝ) / 10000 then spawnRocket inp batteries1 cities1 rockets2
      else rockets2
    let phase1 := if WIN_SCORE ≤ s.score then Phase.won else s.phase
    let phase2 := if batteries1.all (fun b => b.destroyed) then Phase.lost else phase1
    { phase := phase2
      score := s.score + SCORE_PER_ROCKET * kills
      rockets := rockets3
      missiles := missiles1
      explosions := explosions3
      batteries := batteries1
      cities := cities1
      ammo := ⟨(batteries1.getD 0 dummyBattery).ammo, (batteries1.getD 1 dummyBattery).ammo,
               (batteries1.getD 2 dummyBattery).ammo⟩ }
  else s

/-! ## Initial configuration (App.tsx lines 113–125 and `startGame`, 460–479) -/

/-- The three batteries at their fixed positions with capacities 20/40/20. -/
noncomputable def initBatteries : List Battery :=
  [⟨50, CANVAS_HEIGHT - 20, 20, 20, false⟩,
   ⟨CANVAS_WIDTH / 2, CANVAS_HEIGHT - 20, 40, 40, false⟩,
   ⟨CANVAS_WIDTH - 50, CANVAS_HEIGHT - 20, 20, 20, false⟩]

/-- The six cities at their fixed positions. -/
noncomputable def initCities : List City :=
  [⟨150, CANVAS_HEIGHT - 15, false⟩, ⟨250, CANVAS_HEIGHT - 15, false⟩,
   ⟨350, CANVAS_HEIGHT - 15, false⟩, ⟨450, CANVAS_HEIGHT - 15, false⟩,
   ⟨550, CANVAS_HEIGHT - 15, false⟩, ⟨650, CANVAS_HEIGHT - 15, false⟩]

/-- The component's state as initially mounted: phase `menu`, score 0,
empty entity stores, fresh batteries and cities. -/
noncomputable def menuState : GameState :=
  ⟨Phase.menu, 0, [], [], [], initBatteries, initCities, ⟨20, 40, 20⟩⟩

/-- The state right after `startGame` (App.tsx lines 460–479): identical to
the initial mount but with phase `playing`. -/
noncomputable def playingState : GameState :=
  ⟨Phase.playing, 0, [], [], [], initBatteries, initCities, ⟨20, 40, 20⟩⟩

/-- A spawn oracle whose roll 2 exceeds every reachable spawn probability at
the scores used in the concrete runs below, so no rocket spawns. -/
def noSpawnInput : SpawnInput := ⟨2, 0, 0, 0⟩

/-- Evaluation helper: `Real.sqrt a = b` whenever `b ≥ 0` and `b ^ 2 = a`. -/
lemma sqrt_eval (a b : ℝ) (hb : 0 ≤ b) (h : b ^ 2 = a) : Real.sqrt a = b := by
  rw [← h, Real.sqrt_sq hb]

/-! ## Claim C5: the tick is a no-op outside the playing phase -/

/-- Claim C5: in any phase other than `playing` the tick returns the state
unchanged — all entity stores, the score and the snapshot are untouched
(App.tsx line 154 returns before any pass runs). -/
theorem tick_noop_outside_playing (inp : SpawnInput) (s : GameState)
    (h : s.phase ≠ Phase.playing) : update inp s = s := by
  rw [update, if_neg h]

/-- Witness for `tick_noop_outside_playing` on the freshly mounted menu
state. -/
theorem tick_noop_outside_playing_witness :
    menuState.phase ≠ Phase.playing ∧ update noSpawnInput menuState = menuState :=
  ⟨by simp [menuState], tick_noop_outside_playing noSpawnInput menuState (by simp [menuState])⟩

/-! ## Claims C4, C10, C3: win/loss evaluation (App.tsx lines 262–274) -/

/-- Claim C4: during a playing tick the phase becomes `lost` exactly when
every battery's `destroyed` flag is true (as read after the rocket pass has
applied this tick's impacts); neither the cities nor the score appear in the
condition. -/
theorem lost_iff_all_batteries_destroyed (inp : SpawnInput) (s : GameState)
    (h : s.phase = Phase.playing) :
    ((update inp s).phase = Phase.lost ↔
      (rocketsPass s.rockets s.explosions s.batteries s.cities).2.2.1.all
        (fun b => b.destroyed) = true) := by
  rw [update, if_pos h]
  simp only []
  split_ifs with h1 h2
  · simp [h1]
  · simp [h1]
  · simp [h1, h]

/-- Witness for `lost_iff_all_batteries_destroyed`: a playing state whose
three batteries are already destroyed transitions to `lost`. -/
theorem lost_iff_all_batteries_destroyed_witness :
    (GameState.mk Phase.playing 0 [] [] []
        [⟨50, 580, 0, 20, true⟩, ⟨400, 580, 0, 40, true⟩, ⟨750, 580, 0, 20, true⟩]
        initCities ⟨0, 0, 0⟩).phase = Phase.playing ∧
      (update noSpawnInput
        (GameState.mk Phase.playing 0 [] [] []
          [⟨50, 580, 0, 20, true⟩, ⟨400, 580, 0, 40, true⟩, ⟨750, 580, 0, 20, true⟩]
          initCities ⟨0, 0, 0⟩)).phase = Phase.lost :=
  ⟨rfl,
    (lost_iff_all_batteries_destroyed noSpawnInput _ rfl).mpr (by simp [rocketsPass])⟩

/-- Claim C10: when, on the same playing tick, the score read by the win
check is at least 1000 and every battery is destroyed, the final phase is
`lost`: the loss assignment at App.tsx lines 271–274 runs unconditionally
after the win assignment at lines 262–269 and overwrites it. -/
theorem simultaneous_win_loss_resolves_lost (inp : SpawnInput) (s : GameState)
    (h : s.phase = Phase.playing) (_hscore : WIN_SCORE ≤ s.score)
    (hdead : (rocketsPass s.rockets s.explosions s.batteries s.cities).2.2.1.all
      (fun b => b.destroyed) = true) :
    (update inp s).phase = Phase.lost := by
  rw [update, if_pos h]
  simp only []
  rw [if_pos hdead]

/-- Witness for `simultaneous_win_loss_resolves_lost`: score 1000 with all
batteries destroyed yields `lost`, not `won`. -/
theorem simultaneous_win_loss_resolves_lost_witness :
    WIN_SCORE ≤ 1000 ∧
      (update noSpawnInput
        (GameState.mk Phase.playing 1000 [] [] []
          [⟨50, 580, 0, 20, true⟩, ⟨400, 580, 0, 40, true⟩, ⟨750, 580, 0, 20, true⟩]
          initCities ⟨0, 0, 0⟩)).phase = Phase.lost :=
  ⟨le_refl 1000,
    simultaneous_win_loss_resolves_lost noSpawnInput _ rfl (le_refl 1000)
      (by simp [rocketsPass])⟩

/-- Claim C3 (amended): during a playing tick the phase becomes `won` exactly
when the score captured at the start of the tick — not the score after
this tick's collision resolution — is at least 1000 and not every battery is
destroyed.  Kill bonuses earned during a tick are committed to the returned
state but are invisible to that same tick's win check (React closure over
`score`), so 50 kills produce `won` only on the tick after the one that
processes the 50th kill. -/
theorem win_iff_tick_start_score (inp : SpawnInput) (s : GameState)
    (h : s.phase = Phase.playing) :
    ((update inp s).phase = Phase.won ↔
      (WIN_SCORE ≤ s.score ∧
        (rocketsPass s.rockets s.explosions s.batteries s.cities).2.2.1.all
          (fun b => b.destroyed) = false)) := by
  rw [update, if_pos h]
  simp only []
  split_ifs with h1 h2
  · exact iff_of_false (by simp) (fun hc => absurd hc.2 (by simp [h1]))
  · exact iff_of_true rfl ⟨h2, Bool.eq_false_iff.mpr h1⟩
  · rw [h]
    exact iff_of_false (by simp) (fun hc => h2 hc.1)

/-- Tick-start state for the refutation of claim C3: score 980, one rocket
at (100,100) falling toward (100,500) at speed 0.5, and one growing
explosion of radius 30 centred at (100,100) that will engulf the rocket
this very tick. -/
noncomputable def killTickState : GameState :=
  ⟨Phase.playing, 980, [⟨100, 100, 100, 500, 0.5⟩], [], [⟨100, 100, 30, true⟩],
    initBatteries, initCities, ⟨20, 40, 20⟩⟩

lemma rocketDistance_c3 : rocketDistance ⟨100, 100, 100, 500, 0.5⟩ = 400 := by
  rw [rocketDistance]
  norm_num
  exact sqrt_eval 160000 400 (by norm_num) (by norm_num)

lemma moveRocket_c3 : moveRocket ⟨100, 100, 100, 500, 0.5⟩ = ⟨100, 100.5, 100, 500, 0.5⟩ := by
  rw [moveRocket, rocketDistance_c3]
  norm_num [Rocket.mk.injEq]

lemma rocketStep_c3 :
    rocketStep ⟨100, 100, 100, 500, 0.5⟩ [⟨100, 100, 30, true⟩] initBatteries initCities =
      (some ⟨100, 100.5, 100, 500, 0.5⟩, [⟨100, 100, 30, true⟩], initBatteries,
        initCities) := by
  rw [rocketStep, rocketDistance_c3, if_neg (by norm_num), moveRocket_c3]

lemma rocketsPass_c3 :
    rocketsPass [⟨100, 100, 100, 500, 0.5⟩] [⟨100, 100, 30, true⟩] initBatteries initCities =
      ([⟨100, 100.5, 100, 500, 0.5⟩], [⟨100, 100, 30, true⟩], initBatteries, initCities) := by
  simp only [rocketsPass, rocketStep_c3]

lemma expPhaseStep_c3 : expPhaseStep ⟨100, 100, 30, true⟩ = (⟨100, 100, 31.5, true⟩, false) := by
  rw [expPhaseStep_grow_lt _ rfl
    (by rw [EXPLOSION_GROWTH_RATE, EXPLOSION_RADIUS_MAX]; norm_num)]
  rw [EXPLOSION_GROWTH_RATE]
  norm_num [Explosion.mk.injEq]

lemma killScan_c3 :
    killScan ⟨100, 100, 31.5, true⟩ [⟨100, 100.5, 100, 500, 0.5⟩] = ([], 1) := by
  have hs : Real.sqrt (((100 : ℝ) - 100) * (100 - 100) + (100.5 - 100) * (100.5 - 100))
      = 0.5 := by
    rw [show ((100 : ℝ) - 100) * (100 - 100) + (100.5 - 100) * (100.5 - 100) = 1 / 4 from by
      norm_num]
    exact sqrt_eval (1 / 4) 0.5 (by norm_num) (by norm_num)
  simp only [killScan]
  rw [if_pos (by rw [hs]; norm_num)]

lemma explosionsPass_c3 :
    explosionsPass [⟨100, 100, 30, true⟩] [⟨100, 100.5, 100, 500, 0.5⟩] =
      ([⟨100, 100, 31.5, true⟩], [], 1) := by
  simp only [explosionsPass, expPhaseStep_c3, killScan_c3]
  norm_num

/-- Claim C3 fails on the code: at tick start the score is 980; during the
tick the explosion kills the rocket, and the committed score reaches 1000 —
yet the phase after this tick is still `playing`, not `won`, because the win
check compares the score captured at the start of the tick (React closure
over `score`), not the post-collision total.  The transition to `won` only
happens on the following tick. -/
theorem kill_tick_reaches_1000_but_not_won :
    (update noSpawnInput killTickState).score = 1000 ∧
      (update noSpawnInput killTickState).phase = Phase.playing ∧
      (update noSpawnInput killTickState).phase ≠ Phase.won := by
  have hupd : update noSpawnInput killTickState =
      { phase := Phase.playing
        score := 1000
        rockets := []
        missiles := []
        explosions := [⟨100, 100, 31.5, true⟩]
        batteries := initBatteries
        cities := initCities
        ammo := ⟨20, 40, 20⟩ } := by
    rw [update, if_pos (show killTickState.phase = Phase.playing from rfl)]
    simp only [killTickState, rocketsPass_c3]
    simp only [missilesPass, explosionsPass_c3]
    rw [if_neg (show ¬ ((noSpawnInput.roll : ℝ) < 0.015 + ((980 : ℕ) : ℝ) / 10000) by
      rw [noSpawnInput]; push_cast; norm_num)]
    rw [if_neg (show ¬ (WIN_SCORE ≤ 980) by rw [WIN_SCORE]; omega)]
    rw [if_neg (show ¬ (initBatteries.all (fun b => b.destroyed) = true) by
      simp [initBatteries])]
    simp [GameState.mk.injEq, SCORE_PER_ROCKET, initBatteries, dummyBattery]
  rw [hupd]
  refine ⟨rfl, rfl, by simp⟩

/-- Witness for `win_iff_tick_start_score`: a playing state that starts the
tick at score 1000 with live batteries transitions to `won`. -/
theorem win_iff_tick_start_score_witness :
    (GameState.mk Phase.playing 1000 [] [] [] initBatteries initCities ⟨20, 40, 20⟩).phase
        = Phase.playing ∧
      (update noSpawnInput
        (GameState.mk Phase.playing 1000 [] [] [] initBatteries initCities
          ⟨20, 40, 20⟩)).phase = Phase.won :=
  ⟨rfl,
    (win_iff_tick_start_score noSpawnInput _ rfl).mpr
      ⟨le_refl 1000, by simp [rocketsPass, initBatteries]⟩⟩

/-! ## Claim C1: the fire command (`handleCanvasClick`, App.tsx lines 410–458) -/

/-- The battery-selection fold of `handleCanvasClick` (App.tsx lines
432–444): scan the batteries in store order keeping the strictly nearest
non-destroyed one with ammo, comparing `Math.abs(b.x - x)` with strict `<`;
the accumulator `none` plays the role of the initial
`nearestBattery = null` / `minDist = Infinity` pair, and the `ℕ` component
records the index of the battery object the source holds by reference. -/
noncomputable def fireScan (x : ℝ) : List Battery → ℕ → Option (ℕ × ℝ) → Option (ℕ × ℝ)
  | [], _, best => best
  | b :: rest, i, best =>
    if b.destroyed = false ∧ 0 < b.ammo then
      match best with
      | none => fireScan x rest (i + 1) (some (i, |b.x - x|))
      | some (j, m) =>
        if |b.x - x| < m then fireScan x rest (i + 1) (some (i, |b.x - x|))
        else fireScan x rest (i + 1) (some (j, m))
    else fireScan x rest (i + 1) best

/-- The fire command (`handleCanvasClick`, App.tsx lines 410–458) after the
pointer-to-canvas coordinate mapping, which is the input collaborator's job:
no-op unless playing (line 411); otherwise pick the nearest qualifying
battery, decrement its ammo by one and push one missile launched from the
battery's position toward the click point (lines 446–457). -/
noncomputable def fire (x y : ℝ) (s : GameState) : GameState :=
  if s.phase = Phase.playing then
    match fireScan x s.batteries 0 none with
    | none => s
    | some (i, _) =>
      match s.batteries[i]? with
      | none => s
      | some b =>
        { s with
          batteries := s.batteries.set i { b with ammo := b.ammo - 1 },
          missiles := s.missiles ++ [{ x := b.x, y := b.y, destX := x, destY := y,
                                       startX := b.x, startY := b.y }] }
  else s

/-- Full characterisation of the selection fold: either no battery in the
suffix improves on the accumulator (and every qualifying battery there is at
least as far as the accumulator's distance), or the fold returns the first
strict argmin among the qualifying batteries of the suffix that beat the
accumulator. -/
lemma fireScan_char (x : ℝ) :
    ∀ (l : List Battery) (i0 : ℕ) (acc : Option (ℕ × ℝ)),
      (fireScan x l i0 acc = acc ∧
        ∀ (k : ℕ) (b : Battery), l[k]? = some b → b.destroyed = false → 0 < b.ammo →
          ∃ jm : ℕ × ℝ, acc = some jm ∧ jm.2 ≤ |b.x - x|)
      ∨ (∃ (k : ℕ) (b : Battery), l[k]? = some b ∧ b.destroyed = false ∧ 0 < b.ammo ∧
          fireScan x l i0 acc = some (i0 + k, |b.x - x|) ∧
          (∀ jm : ℕ × ℝ, acc = some jm → |b.x - x| < jm.2) ∧
          (∀ (k1 : ℕ) (b1 : Battery), k1 < k → l[k1]? = some b1 → b1.destroyed = false →
            0 < b1.ammo → |b.x - x| < |b1.x - x|) ∧
          (∀ (k1 : ℕ) (b1 : Battery), l[k1]? = some b1 → b1.destroyed = false →
            0 < b1.ammo → |b.x - x| ≤ |b1.x - x|)) := by
  intro l
  induction l with
  | nil =>
    intro i0 acc
    left
    refine ⟨rfl, ?_⟩
    intro k b hk
    simp at hk
  | cons b l ih =>
    intro i0 acc
    by_cases hq : b.destroyed = false ∧ 0 < b.ammo
    · cases acc with
      | none =>
        have hstep : fireScan x (b :: l) i0 none =
            fireScan x l (i0 + 1) (some (i0, |b.x - x|)) := by
          rw [fireScan, if_pos hq]
        rcases ih (i0 + 1) (some (i0, |b.x - x|)) with ⟨he, hall⟩ |
          ⟨k, b2, hget, hd2, ha2, heq, hacc, hbef, hle⟩
        · right
          refine ⟨0, b, by simp, hq.1, hq.2, ?_, ?_, ?_, ?_⟩
          · rw [hstep, he, Nat.add_zero]
          · intro jm hjm; exact absurd hjm (by simp)
          · intro k1 b1 hk1; omega
          · intro k1 b1 hk1 hd1 ha1
            cases k1 with
            | zero => simp at hk1; subst hk1; exact le_refl _
            | succ k2 =>
              rw [List.getElem?_cons_succ] at hk1
              obtain ⟨⟨j1, m1⟩, hjm, hjle⟩ := hall k2 b1 hk1 hd1 ha1
              simp at hjm
              rw [← hjm.2] at hjle
              exact hjle
        · right
          refine ⟨k + 1, b2, by rwa [List.getElem?_cons_succ], hd2, ha2, ?_, ?_, ?_, ?_⟩
          · rw [hstep, heq]
            congr 2
            omega
          · intro jm hjm; exact absurd hjm (by simp)
          · intro k1 b1 hk1 hget1 hd1 ha1
            cases k1 with
            | zero =>
              simp at hget1; subst hget1
              exact hacc (i0, |b.x - x|) rfl
            | succ k2 =>
              rw [List.getElem?_cons_succ] at hget1
              exact hbef k2 b1 (by omega) hget1 hd1 ha1
          · intro k1 b1 hget1 hd1 ha1
            cases k1 with
            | zero =>
              simp at hget1; subst hget1
              exact le_of_lt (hacc (i0, |b.x - x|) rfl)
            | succ k2 =>
              rw [List.getElem?_cons_succ] at hget1
              exact hle k2 b1 hget1 hd1 ha1
      | some jm =>
        obtain ⟨j, m⟩ := jm
        by_cases hlt : |b.x - x| < m
        · have hstep : fireScan x (b :: l) i0 (some (j, m)) =
              fireScan x l (i0 + 1) (some (i0, |b.x - x|)) := by
            rw [fireScan, if_pos hq]
            simp only [if_pos hlt]
          rcases ih (i0 + 1) (some (i0, |b.x - x|)) with ⟨he, hall⟩ |
            ⟨k, b2, hget, hd2, ha2, heq, hacc, hbef, hle⟩
          · right
            refine ⟨0, b, by simp, hq.1, hq.2, ?_, ?_, ?_, ?_⟩
            · rw [hstep, he, Nat.add_zero]
            · rintro ⟨j1, m1⟩ hjm1
              simp at hjm1
              rw [← hjm1.2]
              exact hlt
            · intro k1 b1 hk1; omega
            · intro k1 b1 hk1 hd1 ha1
              cases k1 with
              | zero => simp at hk1; subst hk1; exact le_refl _
              | succ k2 =>
                rw [List.getElem?_cons_succ] at hk1
                obtain ⟨⟨j1, m1⟩, hjm1, hjle⟩ := hall k2 b1 hk1 hd1 ha1
                simp at hjm1
                rw [← hjm1.2] at hjle
                exact hjle
          · right
            refine ⟨k + 1, b2, by rwa [List.getElem?_cons_succ], hd2, ha2, ?_, ?_, ?_, ?_⟩
            · rw [hstep, heq]
              congr 2
              omega
            · rintro ⟨j1, m1⟩ hjm1
              simp at hjm1
              rw [← hjm1.2]
              exact lt_trans (hacc (i0, |b.x - x|) rfl) hlt
            · intro k1 b1 hk1 hget1 hd1 ha1
              cases k1 with
              | zero =>
                simp at hget1; subst hget1
                exact hacc (i0, |b.x - x|) rfl
              | succ k2 =>
                rw [List.getElem?_cons_succ] at hget1
                exact hbef k2 b1 (by omega) hget1 hd1 ha1
            · intro k1 b1 hget1 hd1 ha1
              cases k1 with
              | zero =>
                simp at hget1; subst hget1
                exact le_of_lt (hacc (i0, |b.x - x|) rfl)
              | succ k2 =>
                rw [List.getElem?_cons_succ] at hget1
                exact hle k2 b1 hget1 hd1 ha1
        · have hstep : fireScan x (b :: l) i0 (some (j, m)) =
              fireScan x l (i0 + 1) (some (j, m)) := by
            rw [fireScan, if_pos hq]
            simp only [if_neg hlt]
          rcases ih (i0 + 1) (some (j, m)) with ⟨he, hall⟩ |
            ⟨k, b2, hget, hd2, ha2, heq, hacc, hbef, hle⟩
          · left
            refine ⟨by rw [hstep, he], ?_⟩
            intro k1 b1 hget1 hd1 ha1
            cases k1 with
            | zero =>
              simp at hget1; subst hget1
              exact ⟨(j, m), rfl, not_lt.mp hlt⟩
            | succ k2 =>
              rw [List.getElem?_cons_succ] at hget1
              exact hall k2 b1 hget1 hd1 ha1
          · right
            refine ⟨k + 1, b2, by rwa [List.getElem?_cons_succ], hd2, ha2, ?_, ?_, ?_, ?_⟩
            · rw [hstep, heq]
              congr 2
              omega
            · exact hacc
            · intro k1 b1 hk1 hget1 hd1 ha1
              cases k1 with
              | zero =>
                simp at hget1; subst hget1
                exact lt_of_lt_of_le (hacc (j, m) rfl) (not_lt.mp hlt)
              | succ k2 =>
                rw [List.getElem?_cons_succ] at hget1
                exact hbef k2 b1 (by omega) hget1 hd1 ha1
            · intro k1 b1 hget1 hd1 ha1
              cases k1 with
              | zero =>
                simp at hget1; subst hget1
                exact le_of_lt (lt_of_lt_of_le (hacc (j, m) rfl) (not_lt.mp hlt))
              | succ k2 =>
                rw [List.getElem?_cons_succ] at hget1
                exact hle k2 b1 hget1 hd1 ha1
    · have hstep : fireScan x (b :: l) i0 acc = fireScan x l (i0 + 1) acc := by
        cases acc with
        | none => rw [fireScan, if_neg hq]
        | some jm =>
          obtain ⟨j, m⟩ := jm
          rw [fireScan, if_neg hq]
      rcases ih (i0 + 1) acc with ⟨he, hall⟩ |
        ⟨k, b2, hget, hd2, ha2, heq, hacc, hbef, hle⟩
      · left
        refine ⟨by rw [hstep, he], ?_⟩
        intro k1 b1 hget1 hd1 ha1
        cases k1 with
        | zero =>
          simp at hget1; subst hget1
          exact absurd ⟨hd1, ha1⟩ hq
        | succ k2 =>
          rw [List.getElem?_cons_succ] at hget1
          exact hall k2 b1 hget1 hd1 ha1
      · right
        refine ⟨k + 1, b2, by rwa [List.getElem?_cons_succ], hd2, ha2, ?_, ?_, ?_, ?_⟩
        · rw [hstep, heq]
          congr 2
          omega
        · exact hacc
        · intro k1 b1 hk1 hget1 hd1 ha1
          cases k1 with
          | zero =>
            simp at hget1; subst hget1
            exact absurd ⟨hd1, ha1⟩ hq
          | succ k2 =>
            rw [List.getElem?_cons_succ] at hget1
            exact hbef k2 b1 (by omega) hget1 hd1 ha1
        · intro k1 b1 hget1 hd1 ha1
          cases k1 with
          | zero =>
            simp at hget1; subst hget1
            exact absurd ⟨hd1, ha1⟩ hq
          | succ k2 =>
            rw [List.getElem?_cons_succ] at hget1
            exact hle k2 b1 hget1 hd1 ha1

/-- Claim C1 (amended): while the phase is `playing`, a fire call with no
non-destroyed battery holding ammo is a no-op, and otherwise it selects the
qualifying battery with the strictly smallest horizontal distance to the
click x (ties broken by store order, since the comparison is strict `<`),
decrements exactly that battery's ammo by one and appends exactly one
missile positioned and launched at that battery's position with the click
point as destination. -/
theorem fire_selects_nearest (x y : ℝ) (s : GameState) (h : s.phase = Phase.playing) :
    ((∀ b ∈ s.batteries, ¬(b.destroyed = false ∧ 0 < b.ammo)) → fire x y s = s)
    ∧ (∀ b0 ∈ s.batteries, b0.destroyed = false → 0 < b0.ammo →
        ∃ i b, s.batteries[i]? = some b ∧ b.destroyed = false ∧ 0 < b.ammo ∧
          (∀ b1 ∈ s.batteries, b1.destroyed = false → 0 < b1.ammo →
            |b.x - x| ≤ |b1.x - x|) ∧
          (∀ j b1, j < i → s.batteries[j]? = some b1 → b1.destroyed = false →
            0 < b1.ammo → |b.x - x| < |b1.x - x|) ∧
          fire x y s =
            { s with
              batteries := s.batteries.set i { b with ammo := b.ammo - 1 },
              missiles := s.missiles ++ [{ x := b.x, y := b.y, destX := x, destY := y,
                                           startX := b.x, startY := b.y }] }) := by
  constructor
  · intro hnone
    rcases fireScan_char x s.batteries 0 none with ⟨he, _⟩ |
      ⟨k, b2, hget, hd2, ha2, _, _, _, _⟩
    · rw [fire, if_pos h, he]
    · exact absurd ⟨hd2, ha2⟩ (hnone b2 (List.getElem?_mem hget))
  · intro b0 hb0 hd0 ha0
    rcases fireScan_char x s.batteries 0 none with ⟨_, hall⟩ |
      ⟨k, b2, hget, hd2, ha2, heq, _, hbef, hle⟩
    · obtain ⟨k0, hk0⟩ := List.mem_iff_getElem?.mp hb0
      obtain ⟨jm, hjm, _⟩ := hall k0 b0 hk0 hd0 ha0
      exact absurd hjm (by simp)
    · refine ⟨k, b2, hget, hd2, ha2, ?_, ?_, ?_⟩
      · intro b1 hb1 hd1 ha1
        obtain ⟨k1, hk1⟩ := List.mem_iff_getElem?.mp hb1
        exact hle k1 b1 hk1 hd1 ha1
      · intro j b1 hj hget1 hd1 ha1
        exact hbef j b1 hj hget1 hd1 ha1
      · rw [fire, if_pos h]
        rw [Nat.zero_add] at heq
        rw [heq]
        simp only [hget]

/-- Claim C1 fails on the code as universally stated: `handleCanvasClick`
returns before the battery scan whenever the phase is not `playing`
(App.tsx line 411), so a fire call in the menu phase changes nothing even
though a qualifying battery exists. -/
theorem fire_in_menu_is_noop :
    (∃ b ∈ menuState.batteries, b.destroyed = false ∧ 0 < b.ammo) ∧
      fire 400 300 menuState = menuState := by
  constructor
  · refine ⟨⟨50, CANVAS_HEIGHT - 20, 20, 20, false⟩, ?_, rfl, by norm_num⟩
    simp [menuState, initBatteries]
  · rw [fire, if_neg (by simp [menuState])]

/-- Witness for `fire_selects_nearest` at the fresh playing state with the
click `(400, 300)`: the center battery (index 1) qualifies. -/
theorem fire_selects_nearest_witness :
    playingState.phase = Phase.playing ∧
      (∃ i b, playingState.batteries[i]? = some b ∧ b.destroyed = false ∧ 0 < b.ammo ∧
        (∀ b1 ∈ playingState.batteries, b1.destroyed = false → 0 < b1.ammo →
          |b.x - 400| ≤ |b1.x - 400|) ∧
        (∀ j b1, j < i → playingState.batteries[j]? = some b1 → b1.destroyed = false →
          0 < b1.ammo → |b.x - 400| < |b1.x - 400|) ∧
        fire 400 300 playingState =
          { playingState with
            batteries := playingState.batteries.set i { b with ammo := b.ammo - 1 },
            missiles := playingState.missiles ++
              [{ x := b.x, y := b.y, destX := 400, destY := 300,
                 startX := b.x, startY := b.y }] }) :=
  ⟨rfl,
    (fire_selects_nearest 400 300 playingState rfl).2
      ⟨CANVAS_WIDTH / 2, CANVAS_HEIGHT - 20, 40, 40, false⟩
      (by simp [playingState, initBatteries]) rfl (by norm_num)⟩

/-! ## Claim C6: missile re-aiming -/

/-- Characterisation of the heat-seeking fold: either no rocket in the
suffix beats the running minimum (and every rocket is at least `minD` away),
or the fold returns the first strict argmin among the rockets closer than
`minD`. -/
lemma aimScan_char (m : Missile) :
    ∀ (l : List Rocket) (minD : ℝ) (best : Option Rocket),
      (aimScan m l minD best = (minD, best) ∧
        ∀ (k : ℕ) (r : Rocket), l[k]? = some r → minD ≤ mdistance m r)
      ∨ (∃ (k : ℕ) (r : Rocket), l[k]? = some r ∧
          aimScan m l minD best = (mdistance m r, some r) ∧ mdistance m r < minD ∧
          (∀ (k1 : ℕ) (r1 : Rocket), k1 < k → l[k1]? = some r1 →
            mdistance m r < mdistance m r1) ∧
          (∀ (k1 : ℕ) (r1 : Rocket), l[k1]? = some r1 →
            mdistance m r ≤ mdistance m r1)) := by
  intro l
  induction l with
  | nil =>
    intro minD best
    left
    refine ⟨rfl, ?_⟩
    intro k r hk
    simp at hk
  | cons r l ih =>
    intro minD best
    by_cases hlt : mdistance m r < minD
    · have hstep : aimScan m (r :: l) minD best =
          aimScan m l (mdistance m r) (some r) := by
        rw [aimScan, if_pos hlt]
      rcases ih (mdistance m r) (some r) with ⟨he, hall⟩ |
        ⟨k, r2, hget, heq, hlt2, hbef, hle⟩
      · right
        refine ⟨0, r, by simp, by rw [hstep, he], hlt, ?_, ?_⟩
        · intro k1 r1 hk1; omega
        · intro k1 r1 hget1
          cases k1 with
          | zero => simp at hget1; subst hget1; exact le_refl _
          | succ k2 =>
            rw [List.getElem?_cons_succ] at hget1
            exact hall k2 r1 hget1
      · right
        refine ⟨k + 1, r2, by rwa [List.getElem?_cons_succ], by rw [hstep, heq],
          lt_trans hlt2 hlt, ?_, ?_⟩
        · intro k1 r1 hk1 hget1
          cases k1 with
          | zero => simp at hget1; subst hget1; exact hlt2
          | succ k2 =>
            rw [List.getElem?_cons_succ] at hget1
            exact hbef k2 r1 (by omega) hget1
        · intro k1 r1 hget1
          cases k1 with
          | zero => simp at hget1; subst hget1; exact le_of_lt hlt2
          | succ k2 =>
            rw [List.getElem?_cons_succ] at hget1
            exact hle k2 r1 hget1
    · have hstep : aimScan m (r :: l) minD best = aimScan m l minD best := by
        rw [aimScan, if_neg hlt]
      rcases ih minD best with ⟨he, hall⟩ | ⟨k, r2, hget, heq, hlt2, hbef, hle⟩
      · left
        refine ⟨by rw [hstep, he], ?_⟩
        intro k1 r1 hget1
        cases k1 with
        | zero => simp at hget1; subst hget1; exact not_lt.mp hlt
        | succ k2 =>
          rw [List.getElem?_cons_succ] at hget1
          exact hall k2 r1 hget1
      · right
        refine ⟨k + 1, r2, by rwa [List.getElem?_cons_succ], by rw [hstep, heq],
          hlt2, ?_, ?_⟩
        · intro k1 r1 hk1 hget1
          cases k1 with
          | zero =>
            simp at hget1; subst hget1
            exact lt_of_lt_of_le hlt2 (not_lt.mp hlt)
          | succ k2 =>
            rw [List.getElem?_cons_succ] at hget1
            exact hbef k2 r1 (by omega) hget1
        · intro k1 r1 hget1
          cases k1 with
          | zero =>
            simp at hget1; subst hget1
            exact le_of_lt (lt_of_lt_of_le hlt2 (not_lt.mp hlt))
          | succ k2 =>
            rw [List.getElem?_cons_succ] at hget1
            exact hle k2 r1 hget1

/-- Claim C6 (amended): for every missile the pass actually processes — a
missile immediately following one removed that tick is skipped and left
wholly unchanged — the re-aim step overwrites the destination with the
current position of the strictly nearest rocket within 300 units (ties
broken by store order, since the comparison is strict `<`), and leaves the
destination unchanged when no rocket is strictly within 300 units. -/
theorem missile_reaim_nearest (rockets : List Rocket) (m : Missile) :
    ((∀ r ∈ rockets, ¬(mdistance m r < 300)) → missileAim rockets m = m)
    ∧ (∀ r0 ∈ rockets, mdistance m r0 < 300 →
        ∃ (k : ℕ) (r : Rocket), rockets[k]? = some r ∧ mdistance m r < 300 ∧
          (∀ r1 ∈ rockets, mdistance m r ≤ mdistance m r1) ∧
          (∀ (j : ℕ) (r1 : Rocket), j < k → rockets[j]? = some r1 →
            mdistance m r < mdistance m r1) ∧
          missileAim rockets m = { m with destX := r.x, destY := r.y }) := by
  constructor
  · intro hnone
    rcases aimScan_char m rockets 300 none with ⟨he, _⟩ |
      ⟨k, r2, hget, _, hlt2, _, _⟩
    · rw [missileAim, he]
    · exact absurd hlt2 (hnone r2 (List.getElem?_mem hget))
  · intro r0 hr0 hd0
    rcases aimScan_char m rockets 300 none with ⟨_, hall⟩ |
      ⟨k, r2, hget, heq, hlt2, hbef, hle⟩
    · obtain ⟨k0, hk0⟩ := List.mem_iff_getElem?.mp hr0
      exact absurd hd0 (not_lt.mpr (hall k0 r0 hk0))
    · refine ⟨k, r2, hget, hlt2, ?_, hbef, ?_⟩
      · intro r1 hr1
        obtain ⟨k1, hk1⟩ := List.mem_iff_getElem?.mp hr1
        exact hle k1 r1 hk1
      · rw [missileAim, heq]

/-- Witness for `missile_reaim_nearest`: one rocket at distance 5 from the
missile. -/
theorem missile_reaim_nearest_witness :
    mdistance ⟨0, 0, 9, 9, 0, 0⟩ ⟨3, 4, 3, 580, 0.5⟩ < 300 ∧
      (∃ (k : ℕ) (r : Rocket),
        [(⟨3, 4, 3, 580, 0.5⟩ : Rocket)][k]? = some r ∧
          mdistance ⟨0, 0, 9, 9, 0, 0⟩ r < 300 ∧
          (∀ r1 ∈ [(⟨3, 4, 3, 580, 0.5⟩ : Rocket)],
            mdistance ⟨0, 0, 9, 9, 0, 0⟩ r ≤ mdistance ⟨0, 0, 9, 9, 0, 0⟩ r1) ∧
          (∀ (j : ℕ) (r1 : Rocket), j < k →
            [(⟨3, 4, 3, 580, 0.5⟩ : Rocket)][j]? = some r1 →
            mdistance ⟨0, 0, 9, 9, 0, 0⟩ r < mdistance ⟨0, 0, 9, 9, 0, 0⟩ r1) ∧
          missileAim [⟨3, 4, 3, 580, 0.5⟩] ⟨0, 0, 9, 9, 0, 0⟩ =
            { x := 0, y := 0, destX := r.x, destY := r.y, startX := 0, startY := 0 }) := by
  have hd : mdistance ⟨0, 0, 9, 9, 0, 0⟩ ⟨3, 4, 3, 580, 0.5⟩ < 300 := by
    rw [mdistance]
    rw [show ((3 : ℝ) - 0) ^ 2 + ((4 : ℝ) - 0) ^ 2 = 25 from by norm_num]
    rw [sqrt_eval 25 5 (by norm_num) (by norm_num)]
    norm_num
  exact ⟨hd,
    (missile_reaim_nearest [⟨3, 4, 3, 580, 0.5⟩] ⟨0, 0, 9, 9, 0, 0⟩).2
      ⟨3, 4, 3, 580, 0.5⟩ (by simp) hd⟩

/-- Evaluation helper: `¬ (Real.sqrt a < b)` whenever `b ^ 2 ≤ a` and
`0 ≤ b`. -/
lemma sqrt_not_lt (a b : ℝ) (hb : 0 ≤ b) (h : b ^ 2 ≤ a) : ¬ (Real.sqrt a < b) :=
  not_lt.mpr ((Real.le_sqrt hb (le_trans (sq_nonneg b) h)).mpr h)

/-- Tick-start state for the refutation of claim C6: one rocket far from the
first missile but within 300 units of the second; the first missile is
already at its destination and detonates this tick. -/
noncomputable def skipTickState : GameState :=
  ⟨Phase.playing, 0, [⟨600, 100, 600, 500, 0.5⟩],
    [⟨0, 0, 0, 0, 0, 0⟩, ⟨500, 100, 500, 0, 500, 580⟩], [],
    initBatteries, initCities, ⟨20, 40, 20⟩⟩

lemma rocketDistance_c6 : rocketDistance ⟨600, 100, 600, 500, 0.5⟩ = 400 := by
  rw [rocketDistance]
  norm_num
  exact sqrt_eval 160000 400 (by norm_num) (by norm_num)

lemma rocketsPass_c6 :
    rocketsPass [⟨600, 100, 600, 500, 0.5⟩] [] initBatteries initCities =
      ([⟨600, 100.5, 600, 500, 0.5⟩], [], initBatteries, initCities) := by
  have hmove : moveRocket ⟨600, 100, 600, 500, 0.5⟩ = ⟨600, 100.5, 600, 500, 0.5⟩ := by
    rw [moveRocket, rocketDistance_c6]
    norm_num [Rocket.mk.injEq]
  have hstep : rocketStep ⟨600, 100, 600, 500, 0.5⟩ [] initBatteries initCities =
      (some ⟨600, 100.5, 600, 500, 0.5⟩, [], initBatteries, initCities) := by
    rw [rocketStep, rocketDistance_c6, if_neg (by norm_num), hmove]
  simp only [rocketsPass, hstep]

lemma mdistance_far_c6 :
    ¬ (mdistance ⟨0, 0, 0, 0, 0, 0⟩ ⟨600, 100.5, 600, 500, 0.5⟩ < 300) := by
  rw [mdistance]
  rw [show ((600 : ℝ) - 0) ^ 2 + ((100.5 : ℝ) - 0) ^ 2 = 370100.25 from by norm_num]
  exact sqrt_not_lt 370100.25 300 (by norm_num) (by norm_num)

lemma missileAim_c6 :
    missileAim [⟨600, 100.5, 600, 500, 0.5⟩] ⟨0, 0, 0, 0, 0, 0⟩ = ⟨0, 0, 0, 0, 0, 0⟩ := by
  have hs : aimScan ⟨0, 0, 0, 0, 0, 0⟩ [⟨600, 100.5, 600, 500, 0.5⟩] 300 none =
      (300, none) := by
    rw [aimScan, if_neg mdistance_far_c6, aimScan]
  rw [missileAim, hs]

lemma missilesPass_c6 :
    missilesPass [⟨600, 100.5, 600, 500, 0.5⟩]
        [⟨0, 0, 0, 0, 0, 0⟩, ⟨500, 100, 500, 0, 500, 580⟩] [] =
      ([⟨500, 100, 500, 0, 500, 580⟩], [⟨0, 0, 2, true⟩]) := by
  have hmd : missileDistance ⟨0, 0, 0, 0, 0, 0⟩ = 0 := by
    rw [missileDistance]
    rw [show ((0 : ℝ) - 0) * (0 - 0) + ((0 : ℝ) - 0) * (0 - 0) = 0 from by norm_num]
    exact Real.sqrt_zero
  have hstep : missileStep [⟨600, 100.5, 600, 500, 0.5⟩] ⟨0, 0, 0, 0, 0, 0⟩ [] =
      (none, [⟨0, 0, 2, true⟩]) := by
    rw [missileStep]
    simp only [missileAim_c6, hmd]
    rw [if_pos (by rw [MISSILE_SPEED]; norm_num)]
    simp
  simp only [missilesPass, hstep]

lemma explosionsPass_c6 :
    explosionsPass [⟨0, 0, 2, true⟩] [⟨600, 100.5, 600, 500, 0.5⟩] =
      ([⟨0, 0, 3.5, true⟩], [⟨600, 100.5, 600, 500, 0.5⟩], 0) := by
  have hphase : expPhaseStep ⟨0, 0, 2, true⟩ = (⟨0, 0, 3.5, true⟩, false) := by
    rw [expPhaseStep_grow_lt _ rfl
      (by rw [EXPLOSION_GROWTH_RATE, EXPLOSION_RADIUS_MAX]; norm_num)]
    rw [EXPLOSION_GROWTH_RATE]
    norm_num [Explosion.mk.injEq]
  have hkill : killScan ⟨0, 0, 3.5, true⟩ [⟨600, 100.5, 600, 500, 0.5⟩] =
      ([⟨600, 100.5, 600, 500, 0.5⟩], 0) := by
    simp only [killScan]
    rw [if_neg (by
      rw [show ((600 : ℝ) - 0) * (600 - 0) + ((100.5 : ℝ) - 0) * (100.5 - 0) = 370100.25
        from by norm_num]
      exact sqrt_not_lt 370100.25 3.5 (by norm_num) (by norm_num))]
  simp only [explosionsPass, hphase, hkill]
  norm_num

/-- Claim C6 fails on the code as universally stated: on this tick the first
missile detonates and is spliced out of the array during the forward
`forEach`, so the second missile — which slides into the freed slot — is
skipped entirely.  Its destination stays (500, 0) even though the only live
rocket sits within 300 units (distance √10000.25 ≈ 100) at position
(600, 100.5) during the missile pass. -/
theorem missile_skipped_keeps_destination :
    (update noSpawnInput skipTickState).missiles = [⟨500, 100, 500, 0, 500, 580⟩] ∧
      (update noSpawnInput skipTickState).rockets = [⟨600, 100.5, 600, 500, 0.5⟩] ∧
      mdistance ⟨500, 100, 500, 0, 500, 580⟩ ⟨600, 100.5, 600, 500, 0.5⟩ < 300 ∧
      ¬(((500 : ℝ), (0 : ℝ)) = ((600 : ℝ), (100.5 : ℝ))) := by
  have hclose : mdistance ⟨500, 100, 500, 0, 500, 580⟩ ⟨600, 100.5, 600, 500, 0.5⟩ < 300 := by
    rw [mdistance]
    rw [show ((600 : ℝ) - 500) ^ 2 + ((100.5 : ℝ) - 100) ^ 2 = 10000.25 from by norm_num]
    rw [show (300 : ℝ) = Real.sqrt 90000 from
      (sqrt_eval 90000 300 (by norm_num) (by norm_num)).symm]
    exact Real.sqrt_lt_sqrt (by norm_num) (by norm_num)
  have hupd : update noSpawnInput skipTickState =
      { phase := Phase.playing
        score := 0
        rockets := [⟨600, 100.5, 600, 500, 0.5⟩]
        missiles := [⟨500, 100, 500, 0, 500, 580⟩]
        explosions := [⟨0, 0, 3.5, true⟩]
        batteries := initBatteries
        cities := initCities
        ammo := ⟨20, 40, 20⟩ } := by
    rw [update, if_pos (show skipTickState.phase = Phase.playing from rfl)]
    simp only [skipTickState, rocketsPass_c6, missilesPass_c6, explosionsPass_c6]
    rw [if_neg (show ¬ ((noSpawnInput.roll : ℝ) < 0.015 + ((0 : ℕ) : ℝ) / 10000) by
      rw [noSpawnInput]; push_cast; norm_num)]
    rw [if_neg (show ¬ (WIN_SCORE ≤ 0) by rw [WIN_SCORE]; omega)]
    rw [if_neg (show ¬ (initBatteries.all (fun b => b.destroyed) = true) by
      simp [initBatteries])]
    simp [GameState.mk.injEq, SCORE_PER_ROCKET, initBatteries, dummyBattery]
  rw [hupd]
  refine ⟨rfl, rfl, hclose, by simp⟩

/-! ## Claim C7: rocket impact resolution -/

/-- In a list of reals that are pairwise at least 10 apart, at most one is
strictly within 5 of any point `t`. -/
lemma countP_near_le_one (t : ℝ) :
    ∀ l : List ℝ, l.Pairwise (fun a b => 10 ≤ |a - b|) →
      l.countP (fun v => decide (|v - t| < 5)) ≤ 1 := by
  intro l
  induction l with
  | nil => intro _; simp
  | cons a l ih =>
    intro hp
    rw [List.pairwise_cons] at hp
    rw [List.countP_cons]
    by_cases ha : |a - t| < 5
    · have hz : l.countP (fun v => decide (|v - t| < 5)) = 0 := by
        rw [List.countP_eq_zero]
        intro v hv
        simp only [decide_eq_true_eq, not_lt]
        by_contra hvt
        push_neg at hvt
        have hsep := hp.1 v hv
        have htri : |a - v| ≤ |a - t| + |t - v| := abs_sub_le a t v
        rw [abs_sub_comm t v] at htri
        linarith
      simp [ha, hz]
    · simp [ha]
      exact ih hp.2

/-- Claim C7: when a rocket impacts (distance to its target below 2) it is
removed, exactly one growing explosion of radius 2 appears at the rocket's
current position, and — given the game's fixed structure layout, whose
x-coordinates are pairwise at least 50 apart — at most one battery or city
matches the 5-unit tolerance box around the rocket's target; exactly the
matching structures (hence at most the one aimed at) are marked destroyed,
a battery additionally having its ammo forced to 0, and every other
structure is untouched. -/
theorem impact_destroys_only_target (r : Rocket) (ex : List Explosion) (bs : List Battery)
    (cs : List City) (himp : rocketDistance r < 2)
    (hbx : bs.map (fun b => b.x) = [50, 400, 750])
    (hcx : cs.map (fun c => c.x) = [150, 250, 350, 450, 550, 650]) :
    (rocketStep r ex bs cs).1 = none ∧
    (rocketStep r ex bs cs).2.1 = ex ++ [⟨r.x, r.y, 2, true⟩] ∧
    bs.countP (fun b => decide (batteryHit r b)) +
      cs.countP (fun c => decide (cityHit r c)) ≤ 1 ∧
    (∀ (k : ℕ) (b : Battery), bs[k]? = some b → batteryHit r b →
      (rocketStep r ex bs cs).2.2.1[k]? = some { b with destroyed := true, ammo := 0 }) ∧
    (∀ (k : ℕ) (b : Battery), bs[k]? = some b → ¬ batteryHit r b →
      (rocketStep r ex bs cs).2.2.1[k]? = some b) ∧
    (∀ (k : ℕ) (c : City), cs[k]? = some c → cityHit r c →
      (rocketStep r ex bs cs).2.2.2[k]? = some { c with destroyed := true }) ∧
    (∀ (k : ℕ) (c : City), cs[k]? = some c → ¬ cityHit r c →
      (rocketStep r ex bs cs).2.2.2[k]? = some c) := by
  have hstep : rocketStep r ex bs cs = (none, resolveImpact r ex bs cs) := by
    rw [rocketStep, if_pos himp]
  rw [hstep]
  simp only [resolveImpact]
  refine ⟨trivial, trivial, ?_, ?_, ?_, ?_, ?_⟩
  · have hb : bs.countP (fun b => decide (batteryHit r b)) ≤
        bs.countP ((fun v => decide (|v - r.targetX| < 5)) ∘ (fun b => b.x)) := by
      apply List.countP_mono_left
      intro b _ hpb
      simp only [Function.comp_apply, decide_eq_true_eq] at *
      exact ((batteryHit.eq_1 r b) ▸ hpb).1
    have hc : cs.countP (fun c => decide (cityHit r c)) ≤
        cs.countP ((fun v => decide (|v - r.targetX| < 5)) ∘ (fun c => c.x)) := by
      apply List.countP_mono_left
      intro c _ hpc
      simp only [Function.comp_apply, decide_eq_true_eq] at *
      exact ((cityHit.eq_1 r c) ▸ hpc).1
    rw [← List.countP_map] at hb hc
    rw [hbx] at hb
    rw [hcx] at hc
    have hall : (([50, 400, 750] : List ℝ) ++
        [150, 250, 350, 450, 550, 650]).countP
          (fun v => decide (|v - r.targetX| < 5)) ≤ 1 := by
      apply countP_near_le_one
      simp only [List.cons_append, List.nil_append, List.pairwise_cons, List.mem_cons,
        List.mem_singleton, List.not_mem_nil, le_abs, List.Pairwise.nil]
      norm_num
    rw [List.countP_append] at hall
    omega
  · intro k b hget hhit
    rw [destroyHitBatteries, List.getElem?_map, hget, Option.map_some', if_pos hhit]
  · intro k b hget hhit
    rw [destroyHitBatteries, List.getElem?_map, hget, Option.map_some', if_neg hhit]
  · intro k c hget hhit
    rw [destroyHitCities, List.getElem?_map, hget, Option.map_some', if_pos hhit]
  · intro k c hget hhit
    rw [destroyHitCities, List.getElem?_map, hget, Option.map_some', if_neg hhit]

/-- Witness for `impact_destroys_only_target`: a rocket exactly on the
center battery's position. -/
theorem impact_destroys_only_target_witness :
    rocketDistance ⟨400, 580, 400, 580, 0.5⟩ < 2 ∧
      initBatteries.map (fun b => b.x) = [50, 400, 750] ∧
      initCities.map (fun c => c.x) = [150, 250, 350, 450, 550, 650] ∧
      (rocketStep ⟨400, 580, 400, 580, 0.5⟩ [] initBatteries initCities).1 = none ∧
      initBatteries.countP
          (fun b => decide (batteryHit ⟨400, 580, 400, 580, 0.5⟩ b)) +
        initCities.countP (fun c => decide (cityHit ⟨400, 580, 400, 580, 0.5⟩ c)) ≤ 1 := by
  have himp : rocketDistance ⟨400, 580, 400, 580, 0.5⟩ < 2 := by
    rw [rocketDistance]
    rw [show ((400 : ℝ) - 400) * (400 - 400) + ((580 : ℝ) - 580) * (580 - 580) = 0 from by
      norm_num]
    rw [Real.sqrt_zero]
    norm_num
  have hbx : initBatteries.map (fun b => b.x) = [50, 400, 750] := by
    simp [initBatteries, CANVAS_WIDTH]
    norm_num
  have hcx : initCities.map (fun c => c.x) = [150, 250, 350, 450, 550, 650] := by
    simp [initCities]
  have h := impact_destroys_only_target ⟨400, 580, 400, 580, 0.5⟩ [] initBatteries
    initCities himp hbx hcx
  exact ⟨himp, hbx, hcx, h.1, h.2.2.1⟩

/-! ## Claim C8: rocket distance to target is non-increasing -/

/-- Claim C8: a rocket that survives the Motion update (distance to target
at least 2, so the move branch runs) gets strictly closer: the new distance
is the old distance minus the speed, in particular not larger, given the
spawner's speed invariant `speed ≤ 0.75 < 2`. -/
theorem rocket_distance_nonincreasing (r : Rocket) (hs0 : 0 ≤ r.speed)
    (hs1 : r.speed ≤ ROCKET_SPEED_MAX) (hmove : ¬ (rocketDistance r < 2)) :
    rocketDistance (moveRocket r) ≤ rocketDistance r := by
  have h2le : (2 : ℝ) ≤ rocketDistance r := not_lt.mp hmove
  have hdpos : (0 : ℝ) < rocketDistance r := lt_of_lt_of_le (by norm_num) h2le
  have hdne : rocketDistance r ≠ 0 := ne_of_gt hdpos
  have hsle : r.speed ≤ rocketDistance r := by
    rw [ROCKET_SPEED_MAX] at hs1
    linarith
  have hd2 : rocketDistance r * rocketDistance r =
      (r.targetX - r.x) * (r.targetX - r.x) + (r.targetY - r.y) * (r.targetY - r.y) := by
    rw [rocketDistance]
    exact Real.mul_self_sqrt (add_nonneg (mul_self_nonneg _) (mul_self_nonneg _))
  have hbase : rocketDistance r * (1 - r.speed / rocketDistance r) =
      rocketDistance r - r.speed := by
    field_simp
  have harg2 : (r.targetX - (r.x + (r.targetX - r.x) / rocketDistance r * r.speed)) *
      (r.targetX - (r.x + (r.targetX - r.x) / rocketDistance r * r.speed)) +
      (r.targetY - (r.y + (r.targetY - r.y) / rocketDistance r * r.speed)) *
      (r.targetY - (r.y + (r.targetY - r.y) / rocketDistance r * r.speed)) =
      (rocketDistance r - r.speed) ^ 2 := by
    calc (r.targetX - (r.x + (r.targetX - r.x) / rocketDistance r * r.speed)) *
          (r.targetX - (r.x + (r.targetX - r.x) / rocketDistance r * r.speed)) +
          (r.targetY - (r.y + (r.targetY - r.y) / rocketDistance r * r.speed)) *
          (r.targetY - (r.y + (r.targetY - r.y) / rocketDistance r * r.speed))
        = ((r.targetX - r.x) * (r.targetX - r.x) +
            (r.targetY - r.y) * (r.targetY - r.y)) *
            (1 - r.speed / rocketDistance r) ^ 2 := by ring
      _ = (rocketDistance r * rocketDistance r) *
            (1 - r.speed / rocketDistance r) ^ 2 := by rw [← hd2]
      _ = (rocketDistance r * (1 - r.speed / rocketDistance r)) ^ 2 := by ring
      _ = (rocketDistance r - r.speed) ^ 2 := by rw [hbase]
  have hfinal : rocketDistance (moveRocket r) = rocketDistance r - r.speed := by
    rw [moveRocket, rocketDistance]
    simp only []
    rw [harg2, Real.sqrt_sq (by linarith)]
  rw [hfinal]
  linarith

lemma rocketDistance_four : rocketDistance ⟨0, 0, 0, 4, 0.5⟩ = 4 := by
  rw [rocketDistance]
  rw [show ((0 : ℝ) - 0) * (0 - 0) + ((4 : ℝ) - 0) * (4 - 0) = 16 from by norm_num]
  exact sqrt_eval 16 4 (by norm_num) (by norm_num)

/-- Witness for `rocket_distance_nonincreasing` at a rocket 4 units above
its target. -/
theorem rocket_distance_nonincreasing_witness :
    (0 : ℝ) ≤ (Rocket.mk 0 0 0 4 0.5).speed ∧
      (Rocket.mk 0 0 0 4 0.5).speed ≤ ROCKET_SPEED_MAX ∧
      ¬ (rocketDistance ⟨0, 0, 0, 4, 0.5⟩ < 2) ∧
      rocketDistance (moveRocket ⟨0, 0, 0, 4, 0.5⟩) ≤ rocketDistance ⟨0, 0, 0, 4, 0.5⟩ := by
  have hnot : ¬ (rocketDistance ⟨0, 0, 0, 4, 0.5⟩ < 2) := by
    rw [rocketDistance_four]; norm_num
  exact ⟨by norm_num, by rw [ROCKET_SPEED_MAX]; norm_num, hnot,
    rocket_distance_nonincreasing ⟨0, 0, 0, 4, 0.5⟩ (by norm_num)
      (by rw [ROCKET_SPEED_MAX]; norm_num) hnot⟩

/-! ## Claim C9: the movement branches never divide by zero -/

/-- Claim C9: the divisions `dx / distance` in the movement branches are
only reached when the guard `distance < 2` (rockets) or
`distance < MISSILE_SPEED` (missiles) has failed, and in either case the
distance is then strictly positive — an entity at zero distance is resolved
as arrived (impact or detonation) before any direction vector is computed,
so no division by zero (NaN) can occur. -/
theorem motion_guards_exclude_zero_distance :
    (∀ r : Rocket, ¬ (rocketDistance r < 2) → 0 < rocketDistance r) ∧
      (∀ m : Missile, ¬ (missileDistance m < MISSILE_SPEED) → 0 < missileDistance m) := by
  constructor
  · intro r h
    have := not_lt.mp h
    linarith
  · intro m h
    have := not_lt.mp h
    rw [MISSILE_SPEED] at this
    linarith

lemma missileDistance_nine : missileDistance ⟨0, 0, 0, 9, 0, 0⟩ = 9 := by
  rw [missileDistance]
  rw [show ((0 : ℝ) - 0) * (0 - 0) + ((9 : ℝ) - 0) * (9 - 0) = 81 from by norm_num]
  exact sqrt_eval 81 9 (by norm_num) (by norm_num)

/-- Witness for `motion_guards_exclude_zero_distance` on a rocket at
distance 4 and a missile at distance 9. -/
theorem motion_guards_exclude_zero_distance_witness :
    (¬ (rocketDistance ⟨0, 0, 0, 4, 0.5⟩ < 2) ∧ 0 < rocketDistance ⟨0, 0, 0, 4, 0.5⟩) ∧
      (¬ (missileDistance ⟨0, 0, 0, 9, 0, 0⟩ < MISSILE_SPEED) ∧
        0 < missileDistance ⟨0, 0, 0, 9, 0, 0⟩) := by
  have hr : ¬ (rocketDistance ⟨0, 0, 0, 4, 0.5⟩ < 2) := by
    rw [rocketDistance_four]; norm_num
  have hm : ¬ (missileDistance ⟨0, 0, 0, 9, 0, 0⟩ < MISSILE_SPEED) := by
    rw [missileDistance_nine, MISSILE_SPEED]; norm_num
  exact ⟨⟨hr, motion_guards_exclude_zero_distance.1 ⟨0, 0, 0, 4, 0.5⟩ hr⟩,
    ⟨hm, motion_guards_exclude_zero_distance.2 ⟨0, 0, 0, 9, 0, 0⟩ hm⟩⟩

end MaxDefense
